import Mathlib

/-!
Verification of the dircache library (src/dircache.cpp): an in-memory cache of
directory listings.  The C++ code keeps a process-wide map from path to a
reference-counted snapshot (`dirent_t`) holding an immutable vector of
directory entries; per-open cursors (`dircontext_t`) read through a snapshot.

This file gives a shallow embedding of that code.  Machine pointers are
modelled as natural-number ids into explicit association lists, the C `long`
to `size_t` conversion is modelled as reduction modulo 2^64 (LP64), the
32-bit atomic refcount as arithmetic modulo 2^32, and the external directory
scan primitive (`opendir`/`scandir` against real storage) as an oracle
`String → Option (List dirent)` passed to the operations that consult it.
-/

namespace Dircache

/-- A directory record (POSIX `struct dirent`): the entry name `d_name`
plus opaque metadata (modelled by the inode number `d_ino`).  The cache
copies records by value and never mutates them after capture. -/
structure dirent where
  d_name : String
  d_ino : Nat
deriving DecidableEq, Repr

/-- View of a `dircontext_t` cursor together with the record sequence of the
`dirent_t` snapshot it references: `pos` is `dircontext_t::pos` and `entries`
is `dirent_t::entries`, which is immutable after population, so the cursor
operations (`dircache_readdir`, `dircache_rewinddir`, `dircache_telldir`,
`dircache_seekdir`), which touch only `dir->pos` and read
`dir->ent->entries`, act on this view exactly as the C++ acts on the pair of
heap objects. -/
structure CtxView where
  pos : Nat
  entries : List dirent
deriving DecidableEq, Repr

/-- Embedding of `dircache_readdir` (src/dircache.cpp, second revision,
lines 383-387): if `pos >= entries.size()` return null (`none`), otherwise
return `entries[pos]` and post-increment `pos`. -/
def dircache_readdir (dir : CtxView) : Option dirent × CtxView :=
  if h : dir.pos < dir.entries.length then
    (some (dir.entries.get ⟨dir.pos, h⟩), { dir with pos := dir.pos + 1 })
  else
    (none, dir)

/-- Embedding of `dircache_rewinddir` (lines 395-397): reset `pos` to 0. -/
def dircache_rewinddir (dir : CtxView) : CtxView :=
  { dir with pos := 0 }

/-- Embedding of `dircache_telldir` (lines 400-402): return `pos` as a C
`long`. -/
def dircache_telldir (dir : CtxView) : Int :=
  (dir.pos : Int)

/-- Conversion of a C `long` value to the domain of `size_t`, as performed
by the usual arithmetic conversions in `loc >= entries.size()` and by the
assignment `dir->pos = loc` on LP64: reduction modulo 2^64. -/
def longToSize (loc : Int) : Nat :=
  (loc % (2 ^ 64 : Int)).toNat

/-- Embedding of `dircache_seekdir` (lines 405-409): the comparison
`loc >= dir->ent->entries.size()` converts the signed `loc` to `size_t`;
when it holds the call returns without touching the cursor, otherwise
`dir->pos = loc` stores the same converted value. -/
def dircache_seekdir (dir : CtxView) (loc : Int) : CtxView :=
  if longToSize loc ≥ dir.entries.length then dir
  else { dir with pos := longToSize loc }

/-- Iterate `dircache_readdir` a given number of times, collecting the
returned records (or `none` for the End sentinel) in order. -/
def readN : Nat → CtxView → List (Option dirent) × CtxView
  | 0, d => ([], d)
  | n + 1, d =>
    let (r, d') := dircache_readdir d
    let (rs, d'') := readN n d'
    (r :: rs, d'')

/-- A snapshot (`dirent_t`, lines 201-205): the immutable list of captured
records, the 32-bit atomic reference count `nref`, and the `addedat`
timestamp recorded at population time. -/
structure dirent_t where
  entries : List dirent
  nref : Nat
  addedat : Nat
deriving DecidableEq, Repr

/-- A cursor object (`dircontext_t`, lines 213-216): the read position and
the pointer to the referenced `dirent_t`, modelled as a heap id. -/
structure dircontext_t where
  pos : Nat
  ent : Nat
deriving DecidableEq, Repr

/-- Apply `f` to the value stored under key `k` of an association list,
leaving everything else in place (the model of mutating one heap object in
place through a pointer). -/
def updateAssoc [BEq α] (k : α) (f : β → β) : List (α × β) → List (α × β)
  | [] => []
  | (k', v) :: rest =>
    if k' == k then (k', f v) :: rest else (k', v) :: updateAssoc k f rest

/-- Remove the entry stored under key `k` of an association list (the model
of deallocating one heap object). -/
def removeAssoc [BEq α] (k : α) : List (α × β) → List (α × β)
  | [] => []
  | (k', v) :: rest =>
    if k' == k then rest else (k', v) :: removeAssoc k rest

/-- Whole-cache state: `snaps` is the heap of live `dirent_t` objects
(addressed by id; the C++ code contains no `delete` of a `dirent_t`, so no
operation below ever removes from it), `db` is the global
`unordered_map<string, dirent_t*> dir_db()`, `handles` is the heap of live
`dircontext_t` objects, `nextSnap`/`nextCtx` supply fresh ids for `new`,
and `scans` counts the invocations of the external scan primitive. -/
structure CacheState where
  snaps : List (Nat × dirent_t)
  db : List (String × Nat)
  handles : List (Nat × dircontext_t)
  nextSnap : Nat
  nextCtx : Nat
  scans : Nat
deriving DecidableEq, Repr

/-- The empty cache state: no snapshots, empty map, no open cursors. -/
def emptyState : CacheState :=
  ⟨[], [], [], 0, 0, 0⟩

/-- Embedding of `dc_build_around_ent` (lines 296-302): allocate a new
`dircontext_t`, increment the snapshot's 32-bit refcount (`fetch_add`),
point the context at the snapshot and zero its position.  Returns the id of
the new context together with its value (the C++ returns the pointer). -/
def dc_build_around_ent (s : CacheState) (dentId : Nat) :
    (Nat × dircontext_t) × CacheState :=
  ((s.nextCtx, ⟨0, dentId⟩),
   { s with
     snaps := updateAssoc dentId
       (fun e => { e with nref := (e.nref + 1) % 2 ^ 32 }) s.snaps,
     handles := (s.nextCtx, ⟨0, dentId⟩) :: s.handles,
     nextCtx := s.nextCtx + 1 })

/-- Lexicographic `strcmp(a, b) <= 0` on two character sequences, compared
code point by code point. -/
def charListLe : List Char → List Char → Bool
  | [], _ => true
  | _ :: _, [] => false
  | a :: as, b :: bs =>
    if a.toNat < b.toNat then true
    else if b.toNat < a.toNat then false
    else charListLe as bs

/-- Comparison used by the population path's call to `scandir`
(lines 337-339): `strcmp` on the entry names, as an order relation. -/
def nameLe (a b : dirent) : Prop :=
  charListLe a.d_name.data b.d_name.data = true

instance : DecidableRel nameLe :=
  fun a b =>
    inferInstanceAs (Decidable (charListLe a.d_name.data b.d_name.data = true))

/-- The record order produced by the population path's `scandir` call with
the `strcmp` comparator: sorted ascending by entry name (the sort
algorithm itself is libc's; any comparator-correct sort is an admissible
model, insertion sort here). -/
def sortByName (l : List dirent) : List dirent :=
  List.insertionSort nameLe l

/-- Embedding of `dc_find_or_populate` (lines 322-359).  The external
storage is the oracle `scanFS` (combining the `opendir` null check and the
`scandir` error return into one failure case) and `now` is the value
`dc_get_time()` would report.  On a map hit, build a context around the
existing snapshot; on a miss, consult storage, and on success build a new
snapshot whose entries are sorted by name (the comparator passed to
`scandir`), insert it into the map, and build a context around it.
The map lookup at line 324 happens with no lock held; the insert at
line 354 happens under the write lock (see the event traces below). -/
def dc_find_or_populate (scanFS : String → Option (List dirent)) (now : Nat)
    (path : String) (s : CacheState) :
    Option (Nat × dircontext_t) × CacheState :=
  match s.db.lookup path with
  | some dentId =>
    let (c, s') := dc_build_around_ent s dentId
    (some c, s')
  | none =>
    match scanFS path with
    | none => (none, { s with scans := s.scans + 1 })
    | some recs =>
      let dent : dirent_t := ⟨sortByName recs, 0, now⟩
      let s₁ : CacheState :=
        { s with
          snaps := (s.nextSnap, dent) :: s.snaps,
          db := (path, s.nextSnap) :: s.db,
          nextSnap := s.nextSnap + 1,
          scans := s.scans + 1 }
      let (c, s₂) := dc_build_around_ent s₁ s.nextSnap
      (some c, s₂)

/-- Embedding of `dc_close` (lines 361-369): decrement the snapshot's
32-bit refcount (`fetch_sub`) and delete the context object.  Nothing else
happens: in particular the `dirent_t` is never deallocated (the eviction of
stale entries is an unimplemented TODO in the source). -/
def dc_close (s : CacheState) (ctxId : Nat) : CacheState :=
  match s.handles.lookup ctxId with
  | none => s
  | some ctx =>
    { s with
      snaps := updateAssoc ctx.ent
        (fun e => { e with nref := (e.nref + (2 ^ 32 - 1)) % 2 ^ 32 }) s.snaps,
      handles := removeAssoc ctxId s.handles }

/-- Embedding of `dircache_invalidate` (lines 376-380): clear the map under
the write lock.  The `dirent_t` objects the map pointed to are not freed
(`clear` drops raw pointers), and open contexts are untouched. -/
def dircache_invalidate (s : CacheState) : CacheState :=
  { s with db := [] }

/-- Embedding of `dircache_opendir` (lines 390-392): exactly
`dc_find_or_populate`. -/
def dircache_opendir (scanFS : String → Option (List dirent)) (now : Nat)
    (path : String) (s : CacheState) :
    Option (Nat × dircontext_t) × CacheState :=
  dc_find_or_populate scanFS now path s

/-- Embedding of `dircache_closedir` (lines 412-414): exactly `dc_close`. -/
def dircache_closedir (s : CacheState) (ctxId : Nat) : CacheState :=
  dc_close s ctxId

/-- Embedding of `dircache_scandir` (lines 417-441).  A filter callback
returns a C `int`; `true` models a nonzero return ("the predicate holds").
The code keeps a record `e` exactly when `filter && filter(&e)` is false,
copies the kept references into `namelist`, and runs `qsort` with the
user comparator when the kept count is nonzero; the returned `int` is the
kept count.  The comparator `cmp a b ≤ 0` means `a` sorts no later than
`b`, as for `qsort`. -/
def dircache_scandir (scanFS : String → Option (List dirent)) (now : Nat)
    (path : String) (filt : Option (dirent → Bool))
    (cmp : Option (dirent → dirent → Int)) (s : CacheState) :
    Int × List dirent × CacheState :=
  match dc_find_or_populate scanFS now path s with
  | (none, s') => (-1, [], s')
  | (some (_, ctx), s') =>
    match s'.snaps.lookup ctx.ent with
    | none => (-1, [], s')
    | some dent =>
      let kept := dent.entries.filter (fun e =>
        match filt with
        | some f => !f e
        | none => true)
      let out :=
        match cmp with
        | some c =>
          if kept.length ≠ 0 then
            @List.insertionSort dirent (fun a b => c a b ≤ 0)
              (fun a b => Int.decLe (c a b) 0) kept
          else kept
        | none => kept
      ((kept.length : Int), out, s')

/-- The list of snapshot ids currently allocated in the heap. -/
def snapIds (s : CacheState) : List Nat :=
  s.snaps.map (fun p => p.1)

/-- The record sequence of the snapshot stored under id `i`, if alive. -/
def entriesOf (s : CacheState) (i : Nat) : Option (List dirent) :=
  (s.snaps.lookup i).map (fun e => e.entries)

/-- Dereference a context id to the `CtxView` the cursor operations act
on: its position together with its snapshot's records. -/
def ctxView (s : CacheState) (ctxId : Nat) : Option CtxView :=
  (s.handles.lookup ctxId).bind fun ctx =>
    (s.snaps.lookup ctx.ent).map fun dent => ⟨ctx.pos, dent.entries⟩

/-- One caller-visible cache operation, for reasoning about arbitrary
sequences of opens, closes and invalidations on the store. -/
inductive CacheOp where
  | opendir (path : String)
  | closedir (ctxId : Nat)
  | invalidate
deriving DecidableEq, Repr

/-- Run a sequence of cache operations left to right. -/
def execOps (scanFS : String → Option (List dirent)) (now : Nat) :
    List CacheOp → CacheState → CacheState
  | [], s => s
  | CacheOp.opendir p :: rest, s =>
    execOps scanFS now rest (dircache_opendir scanFS now p s).2
  | CacheOp.closedir c :: rest, s =>
    execOps scanFS now rest (dircache_closedir s c)
  | CacheOp.invalidate :: rest, s =>
    execOps scanFS now rest (dircache_invalidate s)

/-- An event on the global `dir_db()` map or its reader/writer lock, used
to state the locking discipline of the code as a property of each
function's straight-line event trace. -/
inductive DbEv where
  | rdLock
  | wrLock
  | unlock
  | mapRead
  | mapWrite
deriving DecidableEq, Repr

/-- Check that every map access in a trace happens while at least one lock
acquisition is outstanding, tracking the nesting depth `d`. -/
def accessesLocked : List DbEv → Nat → Bool
  | [], _ => true
  | DbEv.rdLock :: rest, d => accessesLocked rest (d + 1)
  | DbEv.wrLock :: rest, d => accessesLocked rest (d + 1)
  | DbEv.unlock :: rest, d => accessesLocked rest (d - 1)
  | DbEv.mapRead :: rest, d => decide (0 < d) && accessesLocked rest d
  | DbEv.mapWrite :: rest, d => decide (0 < d) && accessesLocked rest d

/-- Event trace of `dc_find_or_populate` (lines 322-359) on the global map
and its lock, read off the source line by line: the lookup `db.find(path)`
at line 324 runs with no lock held; on the populate path that succeeds, the
insert at line 354 is bracketed by `write_lock()` (line 353) and
`unlock()` (line 355).  `hit` selects the map-hit path and `scanOk` whether
the storage scan succeeds. -/
def dc_find_or_populate_events (hit : Bool) (scanOk : Bool) : List DbEv :=
  DbEv.mapRead ::
    (if hit then []
     else if scanOk then [DbEv.wrLock, DbEv.mapWrite, DbEv.unlock]
     else [])

/-- Event trace of `dircache_invalidate` (lines 376-380): `clear()` is
bracketed by `write_lock()` and `unlock()`. -/
def dircache_invalidate_events : List DbEv :=
  [DbEv.wrLock, DbEv.mapWrite, DbEv.unlock]

/-- A sample directory record named "a". -/
def recA : dirent := ⟨"a", 1⟩

/-- A sample directory record named "b". -/
def recB : dirent := ⟨"b", 2⟩

/-- A sample storage oracle: path "p" holds records "b" and "a" (yielded in
that unordered way by the scan primitive); every other path fails. -/
def scanFS0 : String → Option (List dirent) :=
  fun p => if p = "p" then some [recB, recA] else none

/-- A storage oracle like `scanFS0` whose scan yields the same two records
for "p" in the opposite order. -/
def scanFS1 : String → Option (List dirent) :=
  fun p => if p = "p" then some [recA, recB] else none

/-- A cache state in which path "p" is already cached with the single
record `recA` and no cursor is open. -/
def cachedState : CacheState :=
  ⟨[(0, ⟨[recA], 0, 0⟩)], [("p", 0)], [], 1, 0, 1⟩

/-- The cache state after one successful `dircache_opendir` of "p" against
`scanFS0` starting from `emptyState`: one snapshot (records sorted to
"a", "b"), refcount 1, one open cursor at position 0. -/
def openedState : CacheState :=
  ⟨[(0, ⟨[recA, recB], 1, 0⟩)], [("p", 0)], [(0, ⟨0, 0⟩)], 1, 1, 1⟩

/-- A one-record cursor view at position 0, for concrete cursor tests. -/
def ctx1 : CtxView :=
  ⟨0, [recA]⟩

end Dircache

namespace Dircache

/-- Claim C1, counterexample at a concrete input: for the cached path "p"
whose snapshot holds exactly `recA`, and the filter `f := fun _ => true`
(the predicate holds of every record, in particular of `recA`),
`dircache_scandir` returns count 0 and the empty listing, although the
subset of cached records satisfying `f` has size 1.  The code keeps a
record exactly when the filter returns zero (`if (filter && filter(&e))
continue;`), the inverse of the claimed (and scandir(3)) convention. -/
theorem c1_scandir_filter_inverted :
    (dircache_scandir scanFS0 0 "p" (some (fun _ => true)) none cachedState).1 = 0 ∧
    (dircache_scandir scanFS0 0 "p" (some (fun _ => true)) none cachedState).2.1 = [] ∧
    (cachedState.snaps.lookup 0).map
      (fun e => (e.entries.filter (fun _ => true)).length) = some 1 := by
  decide

/-- Claim C2, counterexample: on a cursor over one record at position 0,
the token `1` satisfies `0 ≤ 1 ≤ len(records)`, so the claim requires
`dircache_seekdir` to set the position to 1, but the code's test
`loc >= entries.size()` makes the call a no-op and the position stays 0. -/
theorem c2_counterexample :
    (0 : Int) ≤ 1 ∧ (1 : Int) ≤ (ctx1.entries.length : Int) ∧
    (dircache_seekdir ctx1 1).pos ≠ 1 := by
  decide

/-- Claim C2 as amended: for a token in the range of a C `long` and a
record count below 2^63, `dircache_seekdir` sets the position to `t`
exactly when `0 ≤ t < len(records)` (strictly below the length, not `≤`),
and is a no-op for every other token (negative, equal to `len`, or
greater). -/
theorem c2_seekdir_sets_iff_strictly_in_range (d : CtxView) (t : Int)
    (hlo : -(2 ^ 63) ≤ t) (hhi : t < 2 ^ 63)
    (hlen : (d.entries.length : Int) < 2 ^ 63) :
    dircache_seekdir d t =
      if 0 ≤ t ∧ t < (d.entries.length : Int) then { d with pos := t.toNat }
      else d := by
  by_cases h : 0 ≤ t ∧ t < (d.entries.length : Int)
  · have hconv : longToSize t = t.toNat := by
      simp only [longToSize]
      omega
    have hcond : ¬ longToSize t ≥ d.entries.length := by
      rw [hconv]
      omega
    rw [if_pos h]
    simp only [dircache_seekdir]
    rw [if_neg hcond, hconv]
  · have hcond : longToSize t ≥ d.entries.length := by
      simp only [longToSize]
      omega
    rw [if_neg h]
    simp only [dircache_seekdir]
    rw [if_pos hcond]

/-- Claim C2 amended-theorem witness at `d := ctx1`, `t := 0`. -/
theorem c2_seekdir_sets_iff_strictly_in_range_witness :
    dircache_seekdir ctx1 0 =
      if (0 : Int) ≤ 0 ∧ (0 : Int) < (ctx1.entries.length : Int) then
        { ctx1 with pos := (0 : Int).toNat }
      else ctx1 :=
  c2_seekdir_sets_iff_strictly_in_range ctx1 0 (by decide) (by decide) (by decide)

/-- Claim C3, the code evaluated at the failing input: open path "p" (the
snapshot gets id 0), close the only cursor (refcount back to 0), then
invalidate.  Afterwards the snapshot is unlinked (`db = []`) and no cursor
references it (`handles = []`, `nref = 0`), yet the `dirent_t` object is
still in the live heap: `dir_db().clear()` drops the raw pointer without
`delete`, and `dc_close` only decrements the refcount, so the code never
destroys a snapshot, where the claim requires destruction once it is
unlinked and every handle has closed. -/
theorem c3_unlinked_unreferenced_snapshot_not_destroyed :
    (execOps scanFS0 0
        [CacheOp.opendir "p", CacheOp.closedir 0, CacheOp.invalidate]
        emptyState).db = [] ∧
    (execOps scanFS0 0
        [CacheOp.opendir "p", CacheOp.closedir 0, CacheOp.invalidate]
        emptyState).handles = [] ∧
    (execOps scanFS0 0
        [CacheOp.opendir "p", CacheOp.closedir 0, CacheOp.invalidate]
        emptyState).snaps.lookup 0 = some ⟨[recA, recB], 0, 0⟩ := by
  decide

/-- Claim C9, refuted on the code's event traces: the map lookup
`db.find(path)` at the top of `dc_find_or_populate` runs with no lock held
on every path through the function (cache hit, successful populate, failed
populate), while `dircache_invalidate` does bracket its map write with the
exclusive lock.  The claim that no lookup bypasses the lock fails. -/
theorem c9_lookup_bypasses_lock :
    accessesLocked (dc_find_or_populate_events true true) 0 = false ∧
    accessesLocked (dc_find_or_populate_events true false) 0 = false ∧
    accessesLocked (dc_find_or_populate_events false true) 0 = false ∧
    accessesLocked (dc_find_or_populate_events false false) 0 = false ∧
    accessesLocked dircache_invalidate_events 0 = true := by
  decide

/-- Reading at or past the end of the records returns the End sentinel
and leaves the cursor untouched. -/
lemma dircache_readdir_end {d : CtxView} (h : d.entries.length ≤ d.pos) :
    dircache_readdir d = (none, d) := by
  simp only [dircache_readdir]
  rw [dif_neg (Nat.not_lt.mpr h)]

/-- Running the cursor for exactly the number of remaining records yields
those records in order and leaves the position at the length. -/
lemma readN_run :
    ∀ (n : Nat) (d : CtxView), d.pos + n = d.entries.length →
      readN n d =
        ((d.entries.drop d.pos).map some, ⟨d.entries.length, d.entries⟩) := by
  intro n
  induction n with
  | zero =>
    intro d h
    have hp : d.pos = d.entries.length := by omega
    have hd : d.entries.drop d.pos = [] :=
      List.drop_of_length_le (by omega)
    cases d with
    | mk p e =>
      simp only at hp hd
      simp [readN, hp, hd]
  | succ n ih =>
    intro d h
    have hlt : d.pos < d.entries.length := by omega
    have hr : dircache_readdir d =
        (some (d.entries.get ⟨d.pos, hlt⟩), ⟨d.pos + 1, d.entries⟩) := by
      simp only [dircache_readdir]
      rw [dif_pos hlt]
    have ih' := ih ⟨d.pos + 1, d.entries⟩ (by simp; omega)
    simp only at ih'
    simp only [readN, hr, ih']
    simp only [List.drop_eq_getElem_cons hlt, List.map_cons,
      List.get_eq_getElem]

/-- Once the position has reached the length, any number of further reads
returns only End sentinels and never moves the cursor. -/
lemma readN_end :
    ∀ (k : Nat) (d : CtxView), d.entries.length ≤ d.pos →
      readN k d = (List.replicate k none, d) := by
  intro k
  induction k with
  | zero => intro d _; simp [readN]
  | succ k ih =>
    intro d h
    simp only [readN, dircache_readdir_end h, ih d h]
    simp [List.replicate_succ]

/-- Claim C6: starting from position 0 over N records, N consecutive
`dircache_readdir` calls return exactly the records, in order; the state
reached after them is a fixed point of `dircache_readdir` returning the
End sentinel (`none`), so every later read keeps returning End without
changing the handle. -/
theorem c6_sequential_exhaustion (d : CtxView) (h0 : d.pos = 0) :
    (readN d.entries.length d).1 = d.entries.map some ∧
    dircache_readdir (readN d.entries.length d).2 =
      (none, (readN d.entries.length d).2) := by
  have hrun := readN_run d.entries.length d (by omega)
  constructor
  · rw [hrun, h0]
    simp
  · rw [hrun]
    exact dircache_readdir_end (by simp)

/-- Claim C6 witness: a two-record snapshot read from position 0. -/
theorem c6_sequential_exhaustion_witness :
    (readN (CtxView.mk 0 [recA, recB]).entries.length
        (CtxView.mk 0 [recA, recB])).1 =
      (CtxView.mk 0 [recA, recB]).entries.map some ∧
    dircache_readdir
        (readN (CtxView.mk 0 [recA, recB]).entries.length
          (CtxView.mk 0 [recA, recB])).2 =
      (none,
        (readN (CtxView.mk 0 [recA, recB]).entries.length
          (CtxView.mk 0 [recA, recB])).2) :=
  c6_sequential_exhaustion (CtxView.mk 0 [recA, recB]) rfl

/-- Claim C7: when the path is not yet cached and the storage scan fails,
`dircache_opendir` returns the null sentinel and `dircache_scandir`
returns -1 with an empty listing, and the resulting state differs from
the original only in the count of scan-primitive invocations: the
snapshot heap, the path map and the open-cursor heap are all unchanged
(no snapshot created, no entry inserted).  For a path that is still
cached the scan primitive is not consulted at all, so the claim concerns
exactly the uncached case. -/
theorem c7_missing_path_leaves_store_unchanged
    (scanFS : String → Option (List dirent)) (now : Nat) (P : String)
    (s : CacheState) (filt : Option (dirent → Bool))
    (cmp : Option (dirent → dirent → Int))
    (hmiss : s.db.lookup P = none) (hfail : scanFS P = none) :
    dircache_opendir scanFS now P s =
      (none, { s with scans := s.scans + 1 }) ∧
    dircache_scandir scanFS now P filt cmp s =
      (-1, [], { s with scans := s.scans + 1 }) := by
  constructor
  · simp [dircache_opendir, dc_find_or_populate, hmiss, hfail]
  · simp [dircache_scandir, dc_find_or_populate, hmiss, hfail]

/-- Claim C7 witness: the missing path "q" against `scanFS0`, starting
from the state with "p" cached. -/
theorem c7_missing_path_leaves_store_unchanged_witness :
    dircache_opendir scanFS0 0 "q" cachedState =
      (none, { cachedState with scans := cachedState.scans + 1 }) ∧
    dircache_scandir scanFS0 0 "q" none none cachedState =
      (-1, [], { cachedState with scans := cachedState.scans + 1 }) :=
  c7_missing_path_leaves_store_unchanged scanFS0 0 "q" cachedState none none
    (by decide) (by decide)

/-- Claim C10: a cursor created by `dc_build_around_ent` starts at
position 0; under the invariant `pos ≤ len`, each of `dircache_readdir`,
`dircache_rewinddir` and `dircache_seekdir` preserves the invariant; and
the record `dircache_readdir` returns is exactly the checked, in-bounds
indexing `entries[pos]?` (it is `some` precisely when `pos < len`). -/
theorem c10_position_invariant (d : CtxView) (s : CacheState)
    (dentId : Nat) (loc : Int) (hinv : d.pos ≤ d.entries.length) :
    (dc_build_around_ent s dentId).1.2.pos = 0 ∧
    (dircache_readdir d).2.pos ≤ (dircache_readdir d).2.entries.length ∧
    (dircache_rewinddir d).pos ≤ (dircache_rewinddir d).entries.length ∧
    (dircache_seekdir d loc).pos ≤ (dircache_seekdir d loc).entries.length ∧
    (dircache_readdir d).1 = d.entries[d.pos]? ∧
    ((dircache_readdir d).1.isSome ↔ d.pos < d.entries.length) := by
  refine ⟨rfl, ?_, ?_, ?_, ?_, ?_⟩
  · simp only [dircache_readdir]
    by_cases h : d.pos < d.entries.length
    · rw [dif_pos h]
      simpa using h
    · rw [dif_neg h]
      exact hinv
  · simp [dircache_rewinddir]
  · simp only [dircache_seekdir]
    by_cases h : longToSize loc ≥ d.entries.length
    · rw [if_pos h]
      exact hinv
    · rw [if_neg h]
      simp
      omega
  · simp only [dircache_readdir]
    by_cases h : d.pos < d.entries.length
    · rw [dif_pos h]
      rw [List.getElem?_eq_getElem h]
      rfl
    · rw [dif_neg h]
      exact (List.getElem?_eq_none (by omega)).symm
  · simp only [dircache_readdir]
    by_cases h : d.pos < d.entries.length
    · rw [dif_pos h]
      simpa using h
    · rw [dif_neg h]
      simpa using h

/-- Updating the value under key `k` is invisible to a lookup of any other
key, and maps the looked-up value for `k` itself. -/
lemma lookup_updateAssoc [BEq α] [LawfulBEq α] (k i : α) (f : β → β) :
    ∀ l : List (α × β),
      (updateAssoc k f l).lookup i =
        if i == k then (l.lookup i).map f else l.lookup i := by
  intro l
  induction l with
  | nil =>
    simp only [updateAssoc, List.lookup]
    split <;> rfl
  | cons hd tl ih =>
    obtain ⟨k', v⟩ := hd
    by_cases hk : k' = k
    · subst hk
      by_cases hik : i = k'
      · subst hik
        simp [updateAssoc, List.lookup]
      · have hb : (i == k') = false := beq_eq_false_iff_ne.mpr hik
        simp [updateAssoc, List.lookup, hb]
    · have hbk : (k' == k) = false := beq_eq_false_iff_ne.mpr hk
      by_cases hik : i = k'
      · subst hik
        have hk2 : (i == k) = false := beq_eq_false_iff_ne.mpr hk
        simp [updateAssoc, List.lookup, hbk, hk2]
      · have hbik : (i == k') = false := beq_eq_false_iff_ne.mpr hik
        simp [updateAssoc, List.lookup, hbk, hbik, ih]

/-- A refcount-style update under any key leaves every looked-up record
list unchanged. -/
lemma lookup_entries_updateAssoc (k i : Nat) (f : dirent_t → dirent_t)
    (hf : ∀ e, (f e).entries = e.entries) (l : List (Nat × dirent_t)) :
    ((updateAssoc k f l).lookup i).map (fun e => e.entries) =
      (l.lookup i).map (fun e => e.entries) := by
  rw [lookup_updateAssoc]
  by_cases h : i == k
  · rw [if_pos h]
    cases l.lookup i with
    | none => rfl
    | some e => simp [hf]
  · rw [if_neg h]

/-- Claim C4: invalidation only clears the path map, so the view of every
open cursor (its position together with its snapshot's records, through
which `dircache_readdir` reads) is unchanged and later reads return the
same records as before; a subsequent open of any path with a working scan
invokes the scan primitive once more and hands out a cursor on the fresh
snapshot id `s.nextSnap`, which (given that heap ids are below the
allocation counter) is not the id of any existing snapshot, in particular
not of the unlinked one. -/
theorem c4_invalidation_preserves_readers
    (scanFS : String → Option (List dirent)) (now : Nat) (P : String)
    (s : CacheState) (ctxId : Nat) (recs : List dirent)
    (hscan : scanFS P = some recs)
    (hwf : ∀ i ∈ snapIds s, i < s.nextSnap) :
    ctxView (dircache_invalidate s) ctxId = ctxView s ctxId ∧
    (dircache_opendir scanFS now P (dircache_invalidate s)).1 =
      some (s.nextCtx, ⟨0, s.nextSnap⟩) ∧
    (dircache_opendir scanFS now P (dircache_invalidate s)).2.scans =
      s.scans + 1 ∧
    s.nextSnap ∉ snapIds s := by
  refine ⟨rfl, ?_, ?_, ?_⟩
  · simp [dircache_opendir, dc_find_or_populate, dircache_invalidate,
      dc_build_around_ent, hscan, List.lookup]
  · simp [dircache_opendir, dc_find_or_populate, dircache_invalidate,
      dc_build_around_ent, hscan, List.lookup]
  · intro hmem
    exact absurd (hwf _ hmem) (lt_irrefl _)

/-- Claim C4 witness: the state with "p" open once, invalidated under the
oracle `scanFS0`. -/
theorem c4_invalidation_preserves_readers_witness :
    ctxView (dircache_invalidate openedState) 0 = ctxView openedState 0 ∧
    (dircache_opendir scanFS0 0 "p" (dircache_invalidate openedState)).1 =
      some (openedState.nextCtx, ⟨0, openedState.nextSnap⟩) ∧
    (dircache_opendir scanFS0 0 "p" (dircache_invalidate openedState)).2.scans =
      openedState.scans + 1 ∧
    openedState.nextSnap ∉ snapIds openedState :=
  c4_invalidation_preserves_readers scanFS0 0 "p" openedState 0 [recB, recA]
    (by decide) (by decide)

/-- Claim C5: after any successful open of path `P` (which leaves the map
entry for `P` pointing at the snapshot the returned cursor references), a
second open of `P` takes the map-hit path: the scan-invocation count does
not move (the scan primitive is not consulted), the new cursor references
the very same snapshot id, and that snapshot's record sequence is
untouched (the hit only bumps the refcount), so the second cursor reads
records identical to the first, same order. -/
theorem c5_cache_hit_avoids_rescan
    (scanFS : String → Option (List dirent)) (now now' : Nat) (P : String)
    (s s₁ : CacheState) (cid : Nat) (c : dircontext_t)
    (hopen : dircache_opendir scanFS now P s = (some (cid, c), s₁)) :
    (dircache_opendir scanFS now' P s₁).2.scans = s₁.scans ∧
    (dircache_opendir scanFS now' P s₁).1 = some (s₁.nextCtx, ⟨0, c.ent⟩) ∧
    entriesOf (dircache_opendir scanFS now' P s₁).2 c.ent =
      entriesOf s₁ c.ent := by
  have hdb : s₁.db.lookup P = some c.ent := by
    simp only [dircache_opendir, dc_find_or_populate,
      dc_build_around_ent] at hopen
    cases hl : s.db.lookup P with
    | some dentId =>
      rw [hl] at hopen
      simp only [Prod.mk.injEq, Option.some.injEq] at hopen
      obtain ⟨⟨_, hc⟩, hs⟩ := hopen
      subst hc
      rw [← hs]
      exact hl
    | none =>
      rw [hl] at hopen
      cases hf : scanFS P with
      | none =>
        rw [hf] at hopen
        simp at hopen
      | some recs =>
        rw [hf] at hopen
        simp only [Prod.mk.injEq, Option.some.injEq] at hopen
        obtain ⟨⟨_, hc⟩, hs⟩ := hopen
        subst hc
        rw [← hs]
        simp [List.lookup]
  refine ⟨?_, ?_, ?_⟩
  · simp [dircache_opendir, dc_find_or_populate, hdb, dc_build_around_ent]
  · simp [dircache_opendir, dc_find_or_populate, hdb, dc_build_around_ent]
  · simp only [dircache_opendir, dc_find_or_populate, hdb,
      dc_build_around_ent, entriesOf]
    exact lookup_entries_updateAssoc c.ent c.ent
      (fun e => { e with nref := (e.nref + 1) % 2 ^ 32 }) (fun e => rfl)
      s₁.snaps

/-- Claim C5 witness: the second open of "p" after the concrete first
open that produced `openedState`. -/
theorem c5_cache_hit_avoids_rescan_witness :
    (dircache_opendir scanFS0 0 "p" openedState).2.scans =
      openedState.scans ∧
    (dircache_opendir scanFS0 0 "p" openedState).1 =
      some (openedState.nextCtx, ⟨0, (dircontext_t.mk 0 0).ent⟩) ∧
    entriesOf (dircache_opendir scanFS0 0 "p" openedState).2
        (dircontext_t.mk 0 0).ent =
      entriesOf openedState (dircontext_t.mk 0 0).ent :=
  c5_cache_hit_avoids_rescan scanFS0 0 0 "p" emptyState openedState 0
    (dircontext_t.mk 0 0) (by decide)

/-- The `strcmp`-style comparison is total. -/
lemma charListLe_total :
    ∀ x y, charListLe x y = true ∨ charListLe y x = true := by
  intro x
  induction x with
  | nil => intro y; left; rfl
  | cons a as ih =>
    intro y
    cases y with
    | nil => right; rfl
    | cons b bs =>
      rcases Nat.lt_trichotomy a.toNat b.toNat with h | h | h
      · left
        simp [charListLe, h]
      · rcases ih bs with hh | hh
        · left
          simp only [charListLe]
          rw [if_neg (by omega), if_neg (by omega)]
          exact hh
        · right
          simp only [charListLe]
          rw [if_neg (by omega), if_neg (by omega)]
          exact hh
      · right
        simp [charListLe, h]

/-- The `strcmp`-style comparison is transitive. -/
lemma charListLe_trans :
    ∀ x y z, charListLe x y = true → charListLe y z = true →
      charListLe x z = true := by
  intro x
  induction x with
  | nil => intro y z _ _; rfl
  | cons a as ih =>
    intro y z hxy hyz
    cases y with
    | nil => exact absurd hxy (by simp [charListLe])
    | cons b bs =>
      cases z with
      | nil => exact absurd hyz (by simp [charListLe])
      | cons c cs =>
        simp only [charListLe] at hxy hyz ⊢
        split_ifs at hxy with h1 h2
        · split_ifs at hyz with h3 h4
          · rw [if_pos (by omega)]
          · rw [if_pos (by omega)]
        · split_ifs at hyz with h3 h4
          · rw [if_pos (by omega)]
          · rw [if_neg (by omega), if_neg (by omega)]
            exact ih bs cs hxy hyz

/-- The `strcmp`-style comparison is antisymmetric: names less-or-equal in
both directions are character-for-character equal. -/
lemma charListLe_antisymm :
    ∀ x y, charListLe x y = true → charListLe y x = true → x = y := by
  intro x
  induction x with
  | nil =>
    intro y _ h2
    cases y with
    | nil => rfl
    | cons b bs => exact absurd h2 (by simp [charListLe])
  | cons a as ih =>
    intro y h1 h2
    cases y with
    | nil => exact absurd h1 (by simp [charListLe])
    | cons b bs =>
      simp only [charListLe] at h1 h2
      split_ifs at h1 with g1 g2
      · rw [if_neg (by omega), if_pos g1] at h2
        exact absurd h2 (by simp)
      · rw [if_neg (by omega), if_neg (by omega)] at h2
        have hN : a.toNat = b.toNat := by omega
        have hchar : a = b := Char.ext (UInt32.toNat.inj hN)
        have htl : as = bs := ih bs h1 h2
        rw [hchar, htl]

instance : IsTotal dirent nameLe :=
  ⟨fun a b => charListLe_total a.d_name.data b.d_name.data⟩

instance : IsTrans dirent nameLe :=
  ⟨fun _ _ _ h₁ h₂ => charListLe_trans _ _ _ h₁ h₂⟩

/-- Records comparing less-or-equal in both directions carry the same
name. -/
lemma nameLe_names_eq {a b : dirent} (h1 : nameLe a b) (h2 : nameLe b a) :
    a.d_name = b.d_name :=
  congrArg String.mk (charListLe_antisymm _ _ h1 h2)

/-- Strict name order: name-le together with distinct names. -/
def nameStrict (a b : dirent) : Prop :=
  nameLe a b ∧ a.d_name ≠ b.d_name

instance : IsAntisymm dirent nameStrict :=
  ⟨fun _ _ h1 h2 => absurd (nameLe_names_eq h1.1 h2.1) h1.2⟩

/-- The stored order of a population is sorted by name. -/
lemma sortByName_sorted (l : List dirent) :
    List.Pairwise nameLe (sortByName l) :=
  List.sorted_insertionSort nameLe l

/-- Sorting only permutes the scanned records. -/
lemma sortByName_perm (l : List dirent) : (sortByName l).Perm l :=
  List.perm_insertionSort nameLe l

/-- Two scans yielding the same records (in any order, with distinct
names) sort to the same sequence. -/
lemma sortByName_eq_of_perm {l₁ l₂ : List dirent} (h : l₁.Perm l₂)
    (hnd : (l₁.map dirent.d_name).Nodup) : sortByName l₁ = sortByName l₂ := by
  have hnd₂ : (l₂.map dirent.d_name).Nodup :=
    ((h.map dirent.d_name).nodup_iff).mp hnd
  have p₁ := sortByName_perm l₁
  have p₂ := sortByName_perm l₂
  have nd₁ : ((sortByName l₁).map dirent.d_name).Nodup :=
    ((p₁.map dirent.d_name).nodup_iff).mpr hnd
  have nd₂ : ((sortByName l₂).map dirent.d_name).Nodup :=
    ((p₂.map dirent.d_name).nodup_iff).mpr hnd₂
  have st₁ : List.Pairwise nameStrict (sortByName l₁) :=
    (sortByName_sorted l₁).and (List.pairwise_map.mp nd₁)
  have st₂ : List.Pairwise nameStrict (sortByName l₂) :=
    (sortByName_sorted l₂).and (List.pairwise_map.mp nd₂)
  exact List.eq_of_perm_of_sorted (p₁.trans (h.trans p₂.symm)) st₁ st₂

/-- Claim C8: a successful population stores the record sequence sorted by
entry name, ascending (the comparator the population path hands to
`scandir`), so two populations whose scans yield the same set of records
(in any order; entry names are unique within a directory) store identical
record sequences. -/
theorem c8_population_order_deterministic
    (scanFS₁ scanFS₂ : String → Option (List dirent)) (now₁ now₂ : Nat)
    (P₁ P₂ : String) (s₁ s₂ : CacheState) (recs₁ recs₂ : List dirent)
    (hm₁ : s₁.db.lookup P₁ = none) (h₁ : scanFS₁ P₁ = some recs₁)
    (hm₂ : s₂.db.lookup P₂ = none) (h₂ : scanFS₂ P₂ = some recs₂)
    (hperm : recs₁.Perm recs₂) (hnd : (recs₁.map dirent.d_name).Nodup) :
    entriesOf (dircache_opendir scanFS₁ now₁ P₁ s₁).2 s₁.nextSnap =
      some (sortByName recs₁) ∧
    entriesOf (dircache_opendir scanFS₂ now₂ P₂ s₂).2 s₂.nextSnap =
      some (sortByName recs₂) ∧
    List.Pairwise nameLe (sortByName recs₁) ∧
    sortByName recs₁ = sortByName recs₂ := by
  refine ⟨?_, ?_, sortByName_sorted recs₁, sortByName_eq_of_perm hperm hnd⟩
  · simp [dircache_opendir, dc_find_or_populate, hm₁, h₁,
      dc_build_around_ent, entriesOf, lookup_updateAssoc, List.lookup]
  · simp [dircache_opendir, dc_find_or_populate, hm₂, h₂,
      dc_build_around_ent, entriesOf, lookup_updateAssoc, List.lookup]

/-- Claim C8 witness: two scans of "p" yielding the same two records in
opposite orders populate identical sequences. -/
theorem c8_population_order_deterministic_witness :
    entriesOf (dircache_opendir scanFS0 0 "p" emptyState).2
        emptyState.nextSnap = some (sortByName [recB, recA]) ∧
    entriesOf (dircache_opendir scanFS1 0 "p" emptyState).2
        emptyState.nextSnap = some (sortByName [recA, recB]) ∧
    List.Pairwise nameLe (sortByName [recB, recA]) ∧
    sortByName [recB, recA] = sortByName [recA, recB] :=
  c8_population_order_deterministic scanFS0 scanFS1 0 0 "p" "p"
    emptyState emptyState [recB, recA] [recA, recB]
    (by decide) (by decide) (by decide) (by decide) (by decide) (by decide)

/-- Claim C10 witness at a concrete cursor, state, id and token. -/
theorem c10_position_invariant_witness :
    (dc_build_around_ent cachedState 0).1.2.pos = 0 ∧
    (dircache_readdir ctx1).2.pos ≤ (dircache_readdir ctx1).2.entries.length ∧
    (dircache_rewinddir ctx1).pos ≤
      (dircache_rewinddir ctx1).entries.length ∧
    (dircache_seekdir ctx1 5).pos ≤ (dircache_seekdir ctx1 5).entries.length ∧
    (dircache_readdir ctx1).1 = ctx1.entries[ctx1.pos]? ∧
    ((dircache_readdir ctx1).1.isSome ↔ ctx1.pos < ctx1.entries.length) :=
  c10_position_invariant ctx1 cachedState 0 5 (by decide)

end Dircache
